import Mathlib

/-!
Shallow embedding of the core token-fetch engine
(`src/core/token_fetcher.py` of Mafia-TokenUpdater) and proofs about it.

Durations are modelled in milliseconds (`ℕ`) where only ordering matters,
and in `ℚ` where the backoff arithmetic matters.  Floating-point fields
that no property depends on (`success_rate` rounding, wall-clock
`duration`) are left out of the embedded record types.
-/

namespace TokenFetcher

/-! ## Configuration constants (module header of token_fetcher.py) -/

def MAX_CONCURRENT_PER_API : ℕ := 30
def BATCH_SIZE : ℕ := 30
def MAX_RETRIES : ℕ := 15
def INITIAL_DELAY : ℚ := 5
def MAX_DELAY : ℚ := 120
def GITHUB_MAX_RETRIES : ℕ := 15

def API_URLS : List String :=
  ["https://jwt.tsunstudio.pw/v1/auth/saeed?uid={uid}&password={password}",
   "https://tsun-ff-jwt-api.onrender.com/v1/auth/saeed?uid={uid}&password={password}",
   "https://jwt-tsunstudio.onrender.com/v1/auth/saeed?uid={uid}&password={password}"]

/-! ## RateLimitManager (token_fetcher.py lines 50-67)

The manager holds an `asyncio.Event` named `first_error_occurred` (embedded
as its boolean flag) and a boolean `pause_in_progress`.  `handle_rate_limit`
runs under `self.lock`, so concurrent calls are serialised; we embed it as a
state-transition function and study arbitrary serialised call sequences. -/

structure RLMState where
  first_error_occurred : Bool
  pause_in_progress : Bool
  deriving Repr, DecidableEq

namespace RateLimitManager

/-- State produced by `RateLimitManager.__init__`: event clear, no pause. -/
def init : RLMState := { first_error_occurred := false, pause_in_progress := false }

/-- `handle_rate_limit(self, uid)`: under the lock, if `first_error_occurred`
is not set, set it, set `pause_in_progress`, and return `True`; otherwise
return `False`.  The `uid` argument is accepted and unused, as in the code. -/
def handle_rate_limit (s : RLMState) (_uid : String) : Bool × RLMState :=
  if s.first_error_occurred = false then
    (true, { first_error_occurred := true, pause_in_progress := true })
  else
    (false, s)

/-- `reset(self)`: clear the event and `pause_in_progress`. -/
def reset (_s : RLMState) : RLMState :=
  { first_error_occurred := false, pause_in_progress := false }

end RateLimitManager

/-- The tail of the first caller's branch in `fetch_token` (lines 226-229):
after `pause_event.set(); sleep(5); pause_event.clear()` it assigns
`rate_limit_manager.pause_in_progress = False`.  Only that field of the
manager changes; `first_error_occurred` is left set. -/
def finishPauseBroadcast (s : RLMState) : RLMState :=
  { s with pause_in_progress := false }

/-- An operation observed by the manager during one region: a serialised
`handle_rate_limit` call (carrying its uid), or the first caller finishing
its pause broadcast. -/
inductive CoordOp where
  | report (uid : String)
  | finishBroadcast
  deriving Repr, DecidableEq

/-- Run a sequence of operations from a state, collecting the boolean
returned by each `handle_rate_limit` call. -/
def coordTrace : RLMState → List CoordOp → List Bool
  | _, [] => []
  | s, CoordOp.report uid :: ops =>
      let r := RateLimitManager.handle_rate_limit s uid
      r.1 :: coordTrace r.2 ops
  | s, CoordOp.finishBroadcast :: ops => coordTrace (finishPauseBroadcast s) ops

/-- Number of `handle_rate_limit` calls in an operation sequence. -/
def countReports : List CoordOp → ℕ
  | [] => 0
  | CoordOp.report _ :: ops => countReports ops + 1
  | CoordOp.finishBroadcast :: ops => countReports ops

/-- The result pattern the spec demands of `m` serialised calls in one
cycle: the first returns `true`, all others `false`. -/
def firstCallPattern : ℕ → List Bool
  | 0 => []
  | m + 1 => true :: List.replicate m false

lemma countReports_finish (ops : List CoordOp) :
    countReports (CoordOp.finishBroadcast :: ops) = countReports ops := rfl

lemma coordTrace_of_set (s : RLMState) (hs : s.first_error_occurred = true) :
    ∀ ops : List CoordOp,
      coordTrace s ops = List.replicate (countReports ops) false := by
  intro ops
  induction ops generalizing s with
  | nil => rfl
  | cons op ops ih =>
      cases op with
      | report uid =>
          simpa [coordTrace, RateLimitManager.handle_rate_limit, hs, countReports,
            List.replicate_succ] using ih s hs
      | finishBroadcast =>
          simpa [coordTrace, countReports] using ih (finishPauseBroadcast s) hs

lemma coordTrace_of_open (s : RLMState) (hs : s.first_error_occurred = false) :
    ∀ ops : List CoordOp,
      coordTrace s ops = firstCallPattern (countReports ops) := by
  intro ops
  induction ops generalizing s with
  | nil => rfl
  | cons op ops ih =>
      cases op with
      | report uid =>
          simpa [coordTrace, RateLimitManager.handle_rate_limit, hs, countReports,
            firstCallPattern] using coordTrace_of_set _ rfl ops
      | finishBroadcast =>
          simpa [coordTrace, countReports]
            using ih (finishPauseBroadcast s) (by simp [finishPauseBroadcast, hs])

/-- C1: from a freshly initialised (or reset) manager, any serialised
sequence of `handle_rate_limit` calls — with pause-broadcast completions
interleaved arbitrarily — returns `true` exactly on the first call and
`false` on every other; and a call right after `reset()` returns `true`. -/
theorem rate_limit_single_flight (ops : List CoordOp) (s : RLMState) (uid : String) :
    coordTrace RateLimitManager.init ops = firstCallPattern (countReports ops) ∧
    (coordTrace RateLimitManager.init ops).count true = min 1 (countReports ops) ∧
    (RateLimitManager.handle_rate_limit (RateLimitManager.reset s) uid).1 = true := by
  refine ⟨coordTrace_of_open _ rfl ops, ?_, rfl⟩
  rw [coordTrace_of_open _ rfl ops]
  cases countReports ops with
  | zero => rfl
  | succ m =>
      simp [firstCallPattern, List.count_cons, List.count_replicate]

/-- The manager state after one full pause cycle: a first caller got
`isFirst=true`, set the pause event, slept, cleared it, and cleared
`pause_in_progress` — exactly lines 224-229 of token_fetcher.py. -/
def afterFirstCycle : RLMState :=
  finishPauseBroadcast (RateLimitManager.handle_rate_limit RateLimitManager.init "u1").2

/-- C2 counterexample: after the first caller's pause broadcast completes,
the manager is NOT back in the Open state — `first_error_occurred` is still
set and the next `handle_rate_limit` call returns `false`, not `true`. -/
theorem after_broadcast_not_open :
    afterFirstCycle.first_error_occurred = true ∧
    (RateLimitManager.handle_rate_limit afterFirstCycle "u2").1 = false := by
  exact ⟨rfl, rfl⟩

/-- C2 amended: finishing the pause broadcast clears only
`pause_in_progress`; `first_error_occurred` stays set, so every later
`handle_rate_limit` call in the same region returns `false`, and `true`
can only be observed again after `reset()` (or on the fresh manager the
orchestrator creates for the next region). -/
theorem after_broadcast_stays_closed (ops : List CoordOp) (uid : String) :
    afterFirstCycle.pause_in_progress = false ∧
    coordTrace afterFirstCycle ops = List.replicate (countReports ops) false ∧
    (RateLimitManager.handle_rate_limit (RateLimitManager.reset afterFirstCycle) uid).1
      = true := by
  exact ⟨rfl, coordTrace_of_set _ rfl ops, rfl⟩

/-! ## The non-first caller's wait (token_fetcher.py lines 230-233) and C3

The first caller sets `pause_event` at some time `setAt` and clears it
`PAUSE_SLEEP_MS` later.  A non-first caller that reaches the branch at time
`t` with the event set runs `await pause_event.wait()` — which, by the
semantics of `asyncio.Event.wait`, returns immediately when the flag is
already set — then `await asyncio.sleep(0.1)`.  Times are in ms. -/

def PAUSE_SLEEP_MS : ℕ := 5000
def BUFFER_MS : ℕ := 100

/-- `asyncio.Event.wait()` semantics: returns at once if the flag is set,
otherwise suspends until the moment the flag becomes set.  Here the flag is
set from `setAt` on (until cleared), so a waiter arriving at `t` resumes at
`max setAt t`. -/
def eventWaitReturnTime (setAt t : ℕ) : ℕ := max setAt t

/-- The pause signal is active at `t` iff the first caller has set it and
not yet cleared it (it clears at `setAt + PAUSE_SLEEP_MS`). -/
def pauseActiveAt (setAt t : ℕ) : Bool := decide (setAt ≤ t ∧ t < setAt + PAUSE_SLEEP_MS)

/-- Time at which a non-first caller that entered the branch at `t` resumes:
`pause_event.wait()` completes, then a 0.1 s sleep. -/
def notFirstResumeTime (setAt t : ℕ) : ℕ := eventWaitReturnTime setAt t + BUFFER_MS

/-- C3 failing input: the pause is set at time 0; a non-first caller that
observes it set at time 0 resumes at 100 ms, while the pause signal stays
active until 5000 ms.  The caller proceeds although the signal is still
set, because `Event.wait()` does not wait for the event to clear. -/
theorem not_first_resumes_during_pause :
    pauseActiveAt 0 0 = true ∧
    notFirstResumeTime 0 0 = 100 ∧
    pauseActiveAt 0 (notFirstResumeTime 0 0) = true := by
  exact ⟨by decide, by decide, by decide⟩

/-! ## distribute_accounts_across_apis (token_fetcher.py lines 109-132)

The code computes `accounts_per_api = total // len(API_URLS)` and
`remainder = total % len(API_URLS)`, then walks the endpoint list with a
running `start_idx`, giving endpoint `i` the slice
`accounts[start_idx : start_idx + group_size]` where
`group_size = accounts_per_api + (1 if i < remainder else 0)`, and names it
`API_{i+1}`.  We parametrise over the endpoint list (the code reads the
module-level `API_URLS`). -/

/-- `group_size` for endpoint position `i`, with `n` accounts, `k` endpoints. -/
def groupSize (n k i : ℕ) : ℕ := n / k + if i < n % k then 1 else 0

/-- The distribution loop: remaining urls, current index `i`, current
`start_idx`.  Each step emits `(api_url, api_name, accounts_group)`. -/
def distributeAux {α : Type} (accounts : List α) (n k : ℕ) :
    List String → ℕ → ℕ → List (String × String × List α)
  | [], _, _ => []
  | url :: rest, i, start =>
      (url, "API_" ++ toString (i + 1), (accounts.drop start).take (groupSize n k i))
        :: distributeAux accounts n k rest (i + 1) (start + groupSize n k i)

/-- `distribute_accounts_across_apis(accounts)`, with the endpoint list
explicit. -/
def distribute_accounts_across_apis {α : Type} (apiUrls : List String)
    (accounts : List α) : List (String × String × List α) :=
  distributeAux accounts accounts.length apiUrls.length apiUrls 0 0

/-- Total of the group sizes of `m` consecutive endpoints starting at `i`. -/
def sizesFrom (n k : ℕ) : ℕ → ℕ → ℕ
  | 0, _ => 0
  | m + 1, i => groupSize n k i + sizesFrom n k m (i + 1)

lemma sizesFrom_eq (n k : ℕ) : ∀ m i : ℕ,
    sizesFrom n k m i = m * (n / k) + (min (i + m) (n % k) - min i (n % k)) := by
  intro m
  induction m with
  | zero => intro i; simp [sizesFrom]
  | succ m ih =>
      intro i
      rw [sizesFrom, ih (i + 1), groupSize]
      have hmul : (m + 1) * (n / k) = m * (n / k) + n / k := by ring
      rw [hmul]
      split <;> omega

lemma sizesFrom_total (n k : ℕ) (hk : 0 < k) : sizesFrom n k k 0 = n := by
  rw [sizesFrom_eq]
  have h1 : n % k < k := Nat.mod_lt _ hk
  have h2 : k * (n / k) + n % k = n := Nat.div_add_mod n k
  omega

lemma join_distributeAux {α : Type} (accounts : List α) (n k : ℕ) :
    ∀ (urls : List String) (i start : ℕ),
      ((distributeAux accounts n k urls i start).map (fun t => t.2.2)).flatten
        = (accounts.drop start).take (sizesFrom n k urls.length i) := by
  intro urls
  induction urls with
  | nil => intro i start; simp [distributeAux, sizesFrom]
  | cons url rest ih =>
      intro i start
      simp only [distributeAux, List.map_cons, List.flatten_cons, List.length_cons]
      rw [ih (i + 1) (start + groupSize n k i), sizesFrom, List.take_add,
        List.drop_drop]

lemma map_length_distributeAux {α : Type} (accounts : List α) (n k : ℕ)
    (hn : accounts.length = n) :
    ∀ (urls : List String) (i start : ℕ),
      start + sizesFrom n k urls.length i ≤ n →
      (distributeAux accounts n k urls i start).map (fun t => t.2.2.length)
        = (List.range' i urls.length).map (groupSize n k) := by
  intro urls
  induction urls with
  | nil => intro i start _; simp [distributeAux]
  | cons url rest ih =>
      intro i start h
      rw [List.length_cons, sizesFrom] at h
      simp only [distributeAux, List.map_cons, List.length_cons, List.range'_succ]
      refine congrArg₂ _ ?_ (ih (i + 1) (start + groupSize n k i) (by omega))
      rw [List.length_take, List.length_drop, hn]
      omega

/-- C5: for a nonempty endpoint list `url :: rest` (length `k`) and any
account list (length `n`), the distribution produces shards whose lengths
are exactly `n / k + 1` for the first `n % k` endpoints and `n / k` for the
rest, whose lengths sum to `n`, which pairwise differ in length by at most
one, and whose concatenation in endpoint order is the original account
list.  Determinism is immediate: `distribute_accounts_across_apis` is a
pure function of its arguments. -/
theorem distribute_partition {α : Type} (accounts : List α) (url : String)
    (rest : List String) :
    ((distribute_accounts_across_apis (url :: rest) accounts).map
        (fun t => t.2.2.length))
      = (List.range (url :: rest).length).map
          (fun i => accounts.length / (url :: rest).length +
            if i < accounts.length % (url :: rest).length then 1 else 0) ∧
    ((distribute_accounts_across_apis (url :: rest) accounts).map
        (fun t => t.2.2.length)).sum = accounts.length ∧
    (∀ x ∈ (distribute_accounts_across_apis (url :: rest) accounts).map
        (fun t => t.2.2.length),
      ∀ y ∈ (distribute_accounts_across_apis (url :: rest) accounts).map
        (fun t => t.2.2.length), x ≤ y + 1) ∧
    ((distribute_accounts_across_apis (url :: rest) accounts).map
        (fun t => t.2.2)).flatten = accounts := by
  set k := (url :: rest).length with hk
  set n := accounts.length with hn
  have hkpos : 0 < k := by simp [hk]
  have htotal : sizesFrom n k k 0 = n := sizesFrom_total n k hkpos
  have hjoin : ((distribute_accounts_across_apis (url :: rest) accounts).map
      (fun t => t.2.2)).flatten = accounts := by
    rw [distribute_accounts_across_apis, join_distributeAux, ← hk, ← hn, htotal]
    simp
  have hlen : ((distribute_accounts_across_apis (url :: rest) accounts).map
      (fun t => t.2.2.length))
        = (List.range k).map (groupSize n k) := by
    rw [distribute_accounts_across_apis, ← hn, ← hk,
      map_length_distributeAux accounts n k hn.symm (url :: rest) 0 0
        (by rw [← hk, htotal]; omega), ← hk, List.range_eq_range']
  refine ⟨by simpa [groupSize] using hlen, ?_, ?_, hjoin⟩
  · have := congrArg List.length hjoin
    rw [List.length_flatten, List.map_map] at this
    simpa [Function.comp] using this
  · intro x hx y hy
    rw [hlen] at hx hy
    simp only [List.mem_map, List.mem_range] at hx hy
    obtain ⟨i, _, rfl⟩ := hx
    obtain ⟨j, _, rfl⟩ := hy
    unfold groupSize
    split <;> split <;> omega

/-- C5 witness instance: seven accounts over the three configured endpoint
urls — shard lengths `[3, 2, 2]`, concatenation restores the input. -/
theorem distribute_partition_witness :
    ((distribute_accounts_across_apis API_URLS
        ([0, 1, 2, 3, 4, 5, 6] : List ℕ)).map (fun t => t.2.2)).flatten
      = [0, 1, 2, 3, 4, 5, 6] :=
  (distribute_partition ([0, 1, 2, 3, 4, 5, 6] : List ℕ)
    "https://jwt.tsunstudio.pw/v1/auth/saeed?uid={uid}&password={password}"
    ["https://tsun-ff-jwt-api.onrender.com/v1/auth/saeed?uid={uid}&password={password}",
     "https://jwt-tsunstudio.onrender.com/v1/auth/saeed?uid={uid}&password={password}"]).2.2.2

/-! ## Region Run Stats (the shared `stats` dict) -/

/-- The keys of the shared stats dict that the engine reads and writes:
five counters, the per-endpooint success map `api_usage` (an association
list here), and the `current_region` label. -/
structure Stats where
  total : ℕ
  completed : ℕ
  success : ℕ
  failed : ℕ
  timed_out : ℕ
  api_usage : List (String × ℕ)
  current_region : String
  deriving Repr, DecidableEq

/-- The per-region stats setup in `process_region` (lines 363-368): sets
`current_region` and `total` and zeroes `completed`, `success`, `failed`
and `timed_out`.  No other key of the shared dict is touched — in
particular `api_usage` is left exactly as the previous region left it. -/
def regionStatsSetup (s : Stats) (region : String) (total : ℕ) : Stats :=
  { s with
    current_region := region, total := total,
    completed := 0, success := 0, failed := 0, timed_out := 0 }

/-- Stats as a previous region in the same invocation leaves them. -/
def priorRegionStats : Stats :=
  { total := 50, completed := 50, success := 40, failed := 10, timed_out := 2,
    api_usage := [("API_1", 40)], current_region := "BD" }

/-- C8 counterexample: starting the next region does not reset the
`api_usage` mapping — the previous region's per-endpoint success counts
survive into the new region's run. -/
theorem api_usage_not_reset :
    (regionStatsSetup priorRegionStats "IND" 30).api_usage = [("API_1", 40)] ∧
    (regionStatsSetup priorRegionStats "IND" 30).api_usage ≠ [] := by
  exact ⟨rfl, by decide⟩

/-- C8 amended: at region start the counters `total`, `completed`,
`success`, `failed` and `timed_out` are reset, but the `api_usage` mapping
is carried over unchanged from the previous region processed in the same
invocation (the dict is only cleared once per run, at run start). -/
theorem region_setup_resets_counters (s : Stats) (region : String) (total : ℕ) :
    (regionStatsSetup s region total).total = total ∧
    (regionStatsSetup s region total).completed = 0 ∧
    (regionStatsSetup s region total).success = 0 ∧
    (regionStatsSetup s region total).failed = 0 ∧
    (regionStatsSetup s region total).timed_out = 0 ∧
    (regionStatsSetup s region total).api_usage = s.api_usage := by
  exact ⟨rfl, rfl, rfl, rfl, rfl, rfl⟩

/-! ## Backoff delays (fetch_token lines 195-200, push_to_github lines 288-292) -/

/-- Sleep before attempt `attempt` of `fetch_token`'s retry loop: nothing
for attempt 0; otherwise `min(INITIAL_DELAY * 2**(attempt-1), MAX_DELAY)`
plus the `random.uniform(0, 5)` jitter, which is passed in explicitly. -/
def fetchBackoffDelay (attempt : ℕ) (jitter : ℚ) : ℚ :=
  if attempt > 0 then min (INITIAL_DELAY * 2 ^ (attempt - 1)) MAX_DELAY + jitter
  else 0

/-- Sleep before attempt `attempt` of `push_to_github`'s retry loop,
transcribed from its own inline formula (line 291). -/
def githubBackoffDelay (attempt : ℕ) (jitter : ℚ) : ℚ :=
  if attempt > 0 then min (INITIAL_DELAY * 2 ^ (attempt - 1)) MAX_DELAY + jitter
  else 0

/-- C6: attempt 0 sleeps exactly 0; for `k ≥ 1` the delay lies in
`[min(5*2^(k-1), 120), min(5*2^(k-1), 120) + 5)` for any jitter in
`[0, 5)`; and the result-sink retry loop computes the very same delay. -/
theorem backoff_delay_bounds (k : ℕ) (j : ℚ) (h0 : 0 ≤ j) (h5 : j < 5) :
    fetchBackoffDelay 0 j = 0 ∧
    (1 ≤ k →
      min (5 * 2 ^ (k - 1)) 120 ≤ fetchBackoffDelay k j ∧
      fetchBackoffDelay k j < min (5 * 2 ^ (k - 1)) 120 + 5) ∧
    githubBackoffDelay k j = fetchBackoffDelay k j := by
  refine ⟨rfl, ?_, rfl⟩
  intro hk
  have hkpos : k > 0 := hk
  simp only [fetchBackoffDelay, if_pos hkpos, INITIAL_DELAY, MAX_DELAY]
  constructor
  · linarith
  · linarith

/-- C6 witness at `k = 3`, `j = 2`: the delay is `min(20, 120) + 2 = 22`,
inside `[20, 25)`. -/
theorem backoff_delay_bounds_witness :
    (0 : ℚ) ≤ 2 ∧ (2 : ℚ) < 5 ∧
    (fetchBackoffDelay 0 2 = 0 ∧
     (1 ≤ 3 →
       min (5 * 2 ^ (3 - 1)) 120 ≤ fetchBackoffDelay 3 2 ∧
       fetchBackoffDelay 3 2 < min (5 * 2 ^ (3 - 1)) 120 + 5) ∧
     githubBackoffDelay 3 2 = fetchBackoffDelay 3 2) :=
  ⟨by norm_num, by norm_num, backoff_delay_bounds 3 2 (by norm_num) (by norm_num)⟩

/-! ## fetch_token (lines 185-258) and fetch_token_with_timeout (lines 93-107) -/

/-- Outcome of one HTTP attempt inside `fetch_token`, as the code
discriminates it: a 200 response whose JSON body may or may not carry a
`token`; a 429; a 500; any other status; or a raised error (connection
failure, request timeout, JSON decode error — all caught together). -/
inductive FetchResp where
  | ok (token : Option String)
  | rateLimited
  | serverError
  | otherStatus (code : ℕ)
  | netError
  deriving Repr, DecidableEq

/-- Whether a response makes the attempt return a token at once
(`resp.status == 200` with a non-empty `token` field). -/
def isTokenResp : FetchResp → Bool
  | FetchResp.ok (some _) => true
  | _ => false

/-- The shared mutable context a fetch runs in: the stats dict, the
region's `RateLimitManager` and the shared `pause_event` flag. -/
structure FetchCtx where
  stats : Stats
  rlm : RLMState
  pauseSet : Bool
  deriving Repr, DecidableEq

/-- `stats['api_usage'][api_name] = stats['api_usage'].get(api_name, 0) + 1`
on the association list. -/
def bumpApiUsage (apiName : String) : List (String × ℕ) → List (String × ℕ)
  | [] => [(apiName, 1)]
  | (nm, c) :: rest =>
      if nm = apiName then (nm, c + 1) :: rest
      else (nm, c) :: bumpApiUsage apiName rest

/-- Success accounting in `fetch_token` (lines 207-211). -/
def bumpSuccess (apiName : String) (s : Stats) : Stats :=
  { s with
    success := s.success + 1, completed := s.completed + 1,
    api_usage := bumpApiUsage apiName s.api_usage }

/-- Retries-exhausted accounting in `fetch_token` (lines 256-257). -/
def bumpFailed (s : Stats) : Stats :=
  { s with failed := s.failed + 1, completed := s.completed + 1 }

/-- Timeout accounting in `fetch_token_with_timeout` (lines 101-103). -/
def bumpTimeout (s : Stats) : Stats :=
  { s with
    failed := s.failed + 1, completed := s.completed + 1,
    timed_out := s.timed_out + 1 }

/-- One attempt's response handling inside `fetch_token`'s retry loop
(lines 202-244).  First component: `some token` when the attempt makes the
function return, `none` when it falls through to the next attempt. -/
def handleResp (uid apiName : String) (ctx : FetchCtx) :
    FetchResp → Option String × FetchCtx
  | FetchResp.ok (some t) =>
      (some t, { ctx with stats := bumpSuccess apiName ctx.stats })
  | FetchResp.ok none => (none, ctx)
  | FetchResp.rateLimited =>
      let r := RateLimitManager.handle_rate_limit ctx.rlm uid
      if r.1 then
        (none, { ctx with rlm := finishPauseBroadcast r.2, pauseSet := false })
      else
        (none, { ctx with rlm := r.2 })
  | FetchResp.serverError => (none, ctx)
  | FetchResp.otherStatus _ => (none, ctx)
  | FetchResp.netError => (none, ctx)

/-- The retry loop of `fetch_token`: one environment response per attempt
the loop makes (the code makes up to `MAX_RETRIES` of them).  A token
returns immediately with the success accounting already applied; after the
final attempt the failure accounting runs and `None` is returned. -/
def fetch_token (uid apiName : String) :
    List FetchResp → FetchCtx → Option String × FetchCtx
  | [], ctx => (none, { ctx with stats := bumpFailed ctx.stats })
  | r :: rs, ctx =>
      match handleResp uid apiName ctx r with
      | (some t, ctx2) => (some t, ctx2)
      | (none, ctx2) => fetch_token uid apiName rs ctx2

/-- How the inner `fetch_token` behaves under the outer
`asyncio.wait_for`: either it resolves within the 180 s window, having
consumed one response per attempt, or it is still suspended when the
window expires — after some attempts none of which returned — and is
cancelled. -/
inductive InnerRun where
  | resolves (resps : List FetchResp)
  | hangs (consumed : List FetchResp)
  deriving Repr, DecidableEq

/-- A well-formed hanging run: an attempt that returns a token completes
`fetch_token` immediately, so no consumed attempt of a hanging inner call
carries a token. -/
def InnerRun.wf : InnerRun → Prop
  | InnerRun.resolves _ => True
  | InnerRun.hangs consumed => ∀ r ∈ consumed, isTokenResp r = false

/-- The context at the moment the cancelled inner coroutine is abandoned:
the state effects of the attempts it already made have happened; its
terminal accounting has not. -/
def cancelledInnerCtx (uid apiName : String) : List FetchResp → FetchCtx → FetchCtx
  | [], ctx => ctx
  | r :: rs, ctx => cancelledInnerCtx uid apiName rs (handleResp uid apiName ctx r).2

/-- `fetch_token_with_timeout` (lines 93-107): pass the inner result
through when it resolves in time; on `asyncio.TimeoutError` increment
`failed`, `completed` and `timed_out` and return `None`. -/
def fetch_token_with_timeout (uid apiName : String) (run : InnerRun)
    (ctx : FetchCtx) : Option String × FetchCtx :=
  match run with
  | InnerRun.resolves rs => fetch_token uid apiName rs ctx
  | InnerRun.hangs consumed =>
      let ctx2 := cancelledInnerCtx uid apiName consumed ctx
      (none, { ctx2 with stats := bumpTimeout ctx2.stats })

lemma handleResp_counters (uid apiName : String) (ctx : FetchCtx) (r : FetchResp)
    (h : isTokenResp r = false) :
    (handleResp uid apiName ctx r).1 = none ∧
    (handleResp uid apiName ctx r).2.stats = ctx.stats := by
  cases r with
  | ok t =>
      cases t with
      | none => exact ⟨rfl, rfl⟩
      | some t => simp [isTokenResp] at h
  | rateLimited =>
      constructor <;> (simp only [handleResp]; split <;> rfl)
  | serverError => exact ⟨rfl, rfl⟩
  | otherStatus code => exact ⟨rfl, rfl⟩
  | netError => exact ⟨rfl, rfl⟩

lemma cancelledInnerCtx_stats (uid apiName : String) :
    ∀ (rs : List FetchResp) (ctx : FetchCtx),
      (∀ r ∈ rs, isTokenResp r = false) →
      (cancelledInnerCtx uid apiName rs ctx).stats = ctx.stats := by
  intro rs
  induction rs with
  | nil => intro ctx _; rfl
  | cons r rs ih =>
      intro ctx h
      rw [cancelledInnerCtx,
        ih _ (fun x hx => h x (List.mem_cons_of_mem _ hx)),
        (handleResp_counters uid apiName ctx r (h r (List.mem_cons_self r rs))).2]

/-- C9: when the per-item timeout expires (the inner fetch is still
suspended after some non-returning attempts and gets cancelled), the
wrapper returns `None` and increments `failed`, `completed` and
`timed_out` each by exactly one, leaving `success` untouched — the record
is counted once under `timed_out` and once under `failed`, with no second
accounting from the cancelled inner attempt. -/
theorem per_item_timeout_accounting (uid apiName : String)
    (consumed : List FetchResp) (ctx : FetchCtx)
    (h : ∀ r ∈ consumed, isTokenResp r = false) :
    (fetch_token_with_timeout uid apiName (InnerRun.hangs consumed) ctx).1 = none ∧
    (fetch_token_with_timeout uid apiName (InnerRun.hangs consumed) ctx).2.stats.failed
      = ctx.stats.failed + 1 ∧
    (fetch_token_with_timeout uid apiName (InnerRun.hangs consumed) ctx).2.stats.completed
      = ctx.stats.completed + 1 ∧
    (fetch_token_with_timeout uid apiName (InnerRun.hangs consumed) ctx).2.stats.timed_out
      = ctx.stats.timed_out + 1 ∧
    (fetch_token_with_timeout uid apiName (InnerRun.hangs consumed) ctx).2.stats.success
      = ctx.stats.success := by
  have hs := cancelledInnerCtx_stats uid apiName consumed ctx h
  simp [fetch_token_with_timeout, bumpTimeout, hs]

/-- A concrete mid-region context used to instantiate the accounting
theorems. -/
def sampleCtx : FetchCtx :=
  { stats :=
      { total := 3, completed := 1, success := 1, failed := 0, timed_out := 0,
        api_usage := [("API_1", 1)], current_region := "BD" },
    rlm := RateLimitManager.init, pauseSet := false }

/-- C9 witness: a fetch that saw a 429 and then a 500 before hanging past
its 180 s budget is counted exactly once as failed, completed, timed out. -/
theorem per_item_timeout_accounting_witness :
    (∀ r ∈ [FetchResp.rateLimited, FetchResp.serverError], isTokenResp r = false) ∧
    ((fetch_token_with_timeout "u1" "API_1"
        (InnerRun.hangs [FetchResp.rateLimited, FetchResp.serverError]) sampleCtx).1
       = none ∧
     (fetch_token_with_timeout "u1" "API_1"
        (InnerRun.hangs [FetchResp.rateLimited, FetchResp.serverError])
          sampleCtx).2.stats.failed = sampleCtx.stats.failed + 1 ∧
     (fetch_token_with_timeout "u1" "API_1"
        (InnerRun.hangs [FetchResp.rateLimited, FetchResp.serverError])
          sampleCtx).2.stats.completed = sampleCtx.stats.completed + 1 ∧
     (fetch_token_with_timeout "u1" "API_1"
        (InnerRun.hangs [FetchResp.rateLimited, FetchResp.serverError])
          sampleCtx).2.stats.timed_out = sampleCtx.stats.timed_out + 1 ∧
     (fetch_token_with_timeout "u1" "API_1"
        (InnerRun.hangs [FetchResp.rateLimited, FetchResp.serverError])
          sampleCtx).2.stats.success = sampleCtx.stats.success) :=
  ⟨by decide,
   per_item_timeout_accounting "u1" "API_1"
     [FetchResp.rateLimited, FetchResp.serverError] sampleCtx (by decide)⟩

lemma fetch_token_accounting (uid apiName : String) :
    ∀ (rs : List FetchResp) (ctx : FetchCtx),
      (fetch_token uid apiName rs ctx).2.stats.completed = ctx.stats.completed + 1 ∧
      (fetch_token uid apiName rs ctx).2.stats.success
        = ctx.stats.success
          + (if (fetch_token uid apiName rs ctx).1.isSome then 1 else 0) ∧
      (fetch_token uid apiName rs ctx).2.stats.failed
        = ctx.stats.failed
          + (if (fetch_token uid apiName rs ctx).1.isSome then 0 else 1) := by
  intro rs
  induction rs with
  | nil =>
      intro ctx
      simp [fetch_token, bumpFailed]
  | cons r rs ih =>
      intro ctx
      by_cases htok : isTokenResp r = false
      · obtain ⟨h1, h2⟩ := handleResp_counters uid apiName ctx r htok
        have hstep : fetch_token uid apiName (r :: rs) ctx
            = fetch_token uid apiName rs (handleResp uid apiName ctx r).2 := by
          rcases hr : handleResp uid apiName ctx r with ⟨o, ctx2⟩
          rw [hr] at h1
          subst h1
          simp [fetch_token, hr]
        rw [hstep]
        have hh := ih (handleResp uid apiName ctx r).2
        rw [h2] at hh
        exact hh
      · rcases r with t | _ | _ | _ | _ <;> simp [isTokenResp] at htok
        rcases t with _ | tk
        · simp [isTokenResp] at htok
        · simp [fetch_token, handleResp, bumpSuccess]

/-- C10: every completed `fetch_token_with_timeout` call performs exactly
one terminal accounting: `completed` goes up by exactly one, and exactly
one of `success`/`failed` goes up by exactly one — `success` precisely
when a token is returned, `failed` precisely when the result is absent.
Hence each resolved record raises both `completed` and `success + failed`
by one, and `completed = success + failed` is preserved region-wide. -/
theorem fetch_timeout_terminal_accounting (uid apiName : String) (run : InnerRun)
    (ctx : FetchCtx) (hwf : run.wf) :
    (fetch_token_with_timeout uid apiName run ctx).2.stats.completed
      = ctx.stats.completed + 1 ∧
    (fetch_token_with_timeout uid apiName run ctx).2.stats.success
      = ctx.stats.success
        + (if (fetch_token_with_timeout uid apiName run ctx).1.isSome then 1 else 0) ∧
    (fetch_token_with_timeout uid apiName run ctx).2.stats.failed
      = ctx.stats.failed
        + (if (fetch_token_with_timeout uid apiName run ctx).1.isSome then 0 else 1) := by
  cases run with
  | resolves rs => exact fetch_token_accounting uid apiName rs ctx
  | hangs consumed =>
      have hs := cancelledInnerCtx_stats uid apiName consumed ctx hwf
      simp [fetch_token_with_timeout, bumpTimeout, hs]

/-- C10 witness: a fetch that succeeds on its second attempt bumps
`completed` and `success` by one and leaves `failed` alone. -/
theorem fetch_timeout_terminal_accounting_witness :
    InnerRun.wf (InnerRun.resolves [FetchResp.rateLimited, FetchResp.ok (some "tok")]) ∧
    ((fetch_token_with_timeout "u1" "API_1"
        (InnerRun.resolves [FetchResp.rateLimited, FetchResp.ok (some "tok")])
          sampleCtx).2.stats.completed = sampleCtx.stats.completed + 1 ∧
     (fetch_token_with_timeout "u1" "API_1"
        (InnerRun.resolves [FetchResp.rateLimited, FetchResp.ok (some "tok")])
          sampleCtx).2.stats.success
       = sampleCtx.stats.success
         + (if (fetch_token_with_timeout "u1" "API_1"
              (InnerRun.resolves [FetchResp.rateLimited, FetchResp.ok (some "tok")])
                sampleCtx).1.isSome then 1 else 0) ∧
     (fetch_token_with_timeout "u1" "API_1"
        (InnerRun.resolves [FetchResp.rateLimited, FetchResp.ok (some "tok")])
          sampleCtx).2.stats.failed
       = sampleCtx.stats.failed
         + (if (fetch_token_with_timeout "u1" "API_1"
              (InnerRun.resolves [FetchResp.rateLimited, FetchResp.ok (some "tok")])
                sampleCtx).1.isSome then 0 else 1)) :=
  ⟨trivial,
   fetch_timeout_terminal_accounting "u1" "API_1"
     (InnerRun.resolves [FetchResp.rateLimited, FetchResp.ok (some "tok")])
     sampleCtx trivial⟩

/-! ## Region aggregation and the 1200 s region timeout
(process_region lines 399-422 and 457-464) -/

/-- The fetch-phase result list as `process_region` builds it: when the
1200 s `asyncio.wait_for` around `asyncio.gather(*api_tasks)` expires, the
gather is cancelled and the except-branch assigns `results = [None] * total`;
otherwise the per-API result lists are flattened in API order. -/
def regionFetchResults (apiResults : List (List (Option String))) (total : ℕ)
    (timedOut : Bool) : List (Option String) :=
  if timedOut then List.replicate total none else apiResults.flatten

/-- `valid_tokens = [r for r in results if r is not None]` (line 422). -/
def valid_tokens (results : List (Option String)) : List String :=
  results.filterMap id

/-- The Region Result dict returned by `process_region` (lines 457-464),
without its float-valued `success_rate` and `duration` entries. -/
structure RegionResult where
  region : String
  total : ℕ
  success : ℕ
  failed : ℕ
  deriving Repr, DecidableEq

/-- `{'region': ..., 'total': total, 'success': len(valid_tokens),
'failed': total - len(valid_tokens)}`. -/
def buildRegionResult (region : String) (total : ℕ)
    (results : List (Option String)) : RegionResult :=
  { region := region, total := total,
    success := (valid_tokens results).length,
    failed := total - (valid_tokens results).length }

lemma valid_tokens_replicate_none (n : ℕ) :
    valid_tokens (List.replicate n none) = [] := by
  induction n with
  | zero => rfl
  | succ n ih =>
      simp [valid_tokens, List.replicate_succ, List.filterMap_cons]

/-- C4 counterexample: a region of 2 valid records in which one record has
already resolved to a token when the region timeout fires.  The code
replaces the whole result list by `[None, None]`, so the resolved success
is NOT kept: the Region Result reports `success = 0` although one outcome
had resolved successfully. -/
theorem region_timeout_drops_resolved :
    regionFetchResults [[some "t1"], []] 2 true = [none, none] ∧
    (buildRegionResult "bd" 2 (regionFetchResults [[some "t1"], []] 2 true)).success
      = 0 ∧
    (valid_tokens ([[some "t1"], []] : List (List (Option String))).flatten).length
      = 1 := by
  exact ⟨rfl, rfl, rfl⟩

/-- C4 amended: when the region timeout fires, every record's outcome —
already resolved or not — defaults to absent: the aggregation sees `total`
copies of `None`, so the Region Result has `success = 0` and
`failed = total`, while its `total` still equals the number of valid
records; without a timeout the per-API outcome lists are kept in full. -/
theorem region_timeout_defaults_all (region : String)
    (apiResults : List (List (Option String))) (total : ℕ) :
    regionFetchResults apiResults total true = List.replicate total none ∧
    (buildRegionResult region total (regionFetchResults apiResults total true)).total
      = total ∧
    (buildRegionResult region total (regionFetchResults apiResults total true)).success
      = 0 ∧
    (buildRegionResult region total (regionFetchResults apiResults total true)).failed
      = total ∧
    regionFetchResults apiResults total false = apiResults.flatten := by
  refine ⟨rfl, rfl, ?_, ?_, rfl⟩ <;>
    simp [buildRegionResult, regionFetchResults, valid_tokens_replicate_none]

/-! ## push_to_github (lines 279-323) and the local-file cleanup
(process_region lines 446-451) -/

/-- Outcome of one PUT attempt inside `push_to_github`'s retry loop: an
HTTP status, or a raised error (the bare `except` swallows it). -/
inductive PushResp where
  | status (code : ℕ)
  | exc
  deriving Repr, DecidableEq

/-- `resp.status in [200, 201]` is the only case that returns `True`. -/
def pushAttemptOk : PushResp → Bool
  | PushResp.status code => code = 200 || code = 201
  | PushResp.exc => false

/-- The retry loop: first successful attempt returns `True`; falling out of
the loop returns `False`. -/
def pushLoop : List PushResp → Bool
  | [] => false
  | r :: rs => if pushAttemptOk r then true else pushLoop rs

/-- `push_to_github`: returns `False` at once when no GitHub token is
configured; otherwise runs up to `GITHUB_MAX_RETRIES` attempts. -/
def push_to_github (hasGithubToken : Bool) (attempts : List PushResp) : Bool :=
  if hasGithubToken then pushLoop (attempts.take GITHUB_MAX_RETRIES) else false

/-- The save-push-cleanup tail of `process_region` (lines 435-451): the
local token file has just been written (so it exists), `push_to_github`
runs — its return value is not bound to anything — and then the file is
unlinked whenever it exists.  Returns `(push outcome, whether the local
file still exists afterwards)`. -/
def savePushCleanup (hasGithubToken : Bool) (attempts : List PushResp) :
    Bool × Bool :=
  let pushOk := push_to_github hasGithubToken attempts
  let localFileExists := true
  (pushOk, if localFileExists then false else localFileExists)

/-- C7 counterexample: a push whose 15 attempts all raise is reported
failed, yet the local staging file is deleted anyway — it is not retained
for manual recovery, contradicting delete-iff-confirmed-success. -/
theorem cleanup_despite_push_failure :
    (savePushCleanup true (List.replicate 15 PushResp.exc)).1 = false ∧
    (savePushCleanup true (List.replicate 15 PushResp.exc)).2 = false := by
  exact ⟨by decide, rfl⟩

/-- C7 amended: after the push attempt the local token artifact is deleted
unconditionally, whatever `push_to_github` returned — the deletion is not
conditioned on a confirmed remote success. -/
theorem cleanup_unconditional (hasGithubToken : Bool) (attempts : List PushResp) :
    (savePushCleanup hasGithubToken attempts).2 = false := rfl

end TokenFetcher
